import Mathlib

/-!
Verification of the SierraVision change-detection and classification core.

This file gives a shallow embedding of the numeric core of the repository
(`sierravision/backend`): the mask-subtraction deforestation detector
(`change_detector.py`), the index-difference change detector and its summary
statistics (`improved_visualizer.py`, `simple_visualizer.py`), and the NDVI /
band-normalization / density-classification routines
(`enhanced_processor.py`), together with theorems settling the spec's claims
about them.

Conventions of the embedding:
* binary vegetation masks (OpenCV `uint8` arrays holding 0 or 255) are
  `Fin h → Fin w → Bool` matrices, `true` standing for 255;
* numeric rasters are `Fin h → Fin w → ℚ` matrices;
* floating-point arrays whose entries can become NaN are
  `Fin h → Fin w → Option ℚ`, with `none` modelling NaN.  The scalar
  operations `fadd`, `fsub`, `fmul`, `fdiv`, `flt`, `fgt` mirror IEEE
  behaviour on the values that actually arise in the modelled code paths:
  every division that can see a zero denominator there also has a zero
  numerator (0/0 = NaN), and every comparison against NaN is false.
-/

namespace SierraVision

/-! ### Scalar float model: `none` is NaN -/

/-- Float addition; any operation touching NaN yields NaN. -/
def fadd : Option ℚ → Option ℚ → Option ℚ
  | some a, some b => some (a + b)
  | _, _ => none

/-- Float subtraction; any operation touching NaN yields NaN. -/
def fsub : Option ℚ → Option ℚ → Option ℚ
  | some a, some b => some (a - b)
  | _, _ => none

/-- Float multiplication; any operation touching NaN yields NaN. -/
def fmul : Option ℚ → Option ℚ → Option ℚ
  | some a, some b => some (a * b)
  | _, _ => none

/-- Float division.  In every modelled code path a zero denominator occurs
only together with a zero numerator, so the result there is IEEE 0/0 = NaN,
modelled as `none`. -/
def fdiv : Option ℚ → Option ℚ → Option ℚ
  | some a, some b => if b = 0 then none else some (a / b)
  | _, _ => none

/-- Comparison `x < c` on floats: false when `x` is NaN (IEEE comparison semantics). -/
def flt : Option ℚ → ℚ → Bool
  | some a, c => decide (a < c)
  | none, _ => false

/-- Comparison `x > c` on floats: false when `x` is NaN (IEEE comparison semantics). -/
def fgt : Option ℚ → ℚ → Bool
  | some a, c => decide (c < a)
  | none, _ => false

/-! ### Rasters -/

/-- Row-major flattening of a raster, as in `numpy` reductions over a 2-D array. -/
def flatten {h w : ℕ} (M : Fin h → Fin w → ℚ) : List ℚ :=
  (List.finRange h).flatMap (fun i => (List.finRange w).map (M i))

/-- Pixel minimum `arr.min()` (0 on the empty raster, which numpy rejects;
no claim is stated on empty rasters). -/
def matMin {h w : ℕ} (M : Fin h → Fin w → ℚ) : ℚ :=
  match flatten M with
  | [] => 0
  | x :: xs => xs.foldl min x

/-- Pixel maximum `arr.max()` (0 on the empty raster). -/
def matMax {h w : ℕ} (M : Fin h → Fin w → ℚ) : ℚ :=
  match flatten M with
  | [] => 0
  | x :: xs => xs.foldl max x

/-- Pixel mean `arr.mean()`. -/
def matMean {h w : ℕ} (M : Fin h → Fin w → ℚ) : ℚ :=
  (flatten M).sum / ((flatten M).length : ℚ)

/-- Count `np.sum(mask > 0)`: the number of set pixels of a binary mask. -/
def countTrue {h w : ℕ} (M : Fin h → Fin w → Bool) : ℕ :=
  (Finset.univ.filter (fun p : Fin h × Fin w => M p.1 p.2 = true)).card

/-- Scalar `np.clip(x, lo, hi)`. -/
def clipQ (x lo hi : ℚ) : ℚ := max lo (min x hi)

/-- Shift an index by an integer offset, `none` when the result leaves the
image (used for the border handling of the morphological and convolution
windows). -/
def shiftIdx (n : ℕ) (i : Fin n) (d : ℤ) : Option (Fin n) :=
  let k : ℤ := (i : ℤ) + d
  if hk : 0 ≤ k ∧ k < (n : ℤ) then some ⟨k.toNat, by omega⟩ else none

/-! ### Mask-subtraction mode (`change_detector.detect_deforestation`) -/

/-- Offsets of the 5×5 structuring element `np.ones((5, 5))` with its centre
anchor, as used by `cv2.morphologyEx(loss_mask, cv2.MORPH_OPEN, kernel)`. -/
def kernelOffsets : List ℤ := [-2, -1, 0, 1, 2]

/-- Erosion by the 5×5 ones kernel.  OpenCV erosion pads the border with the
type maximum, so out-of-image window positions count as set. -/
def erodeMask {h w : ℕ} (M : Fin h → Fin w → Bool) : Fin h → Fin w → Bool := fun i j =>
  kernelOffsets.all fun di => kernelOffsets.all fun dj =>
    match shiftIdx h i di, shiftIdx w j dj with
    | some i2, some j2 => M i2 j2
    | _, _ => true

/-- Dilation by the 5×5 ones kernel.  OpenCV dilation pads the border with the
type minimum, so out-of-image window positions count as clear. -/
def dilateMask {h w : ℕ} (M : Fin h → Fin w → Bool) : Fin h → Fin w → Bool := fun i j =>
  kernelOffsets.any fun di => kernelOffsets.any fun dj =>
    match shiftIdx h i di, shiftIdx w j dj with
    | some i2, some j2 => M i2 j2
    | _, _ => false

/-- Morphological opening: erosion followed by dilation
(`cv2.MORPH_OPEN` with the 5×5 ones kernel). -/
def openMask {h w : ℕ} (M : Fin h → Fin w → Bool) : Fin h → Fin w → Bool :=
  dilateMask (erodeMask M)

/-- Saturating `cv2.subtract(before_mask, after_mask)` on 0/255 masks:
subtraction, i.e. set exactly where `before_mask` is set and `after_mask`
is not. -/
def vegetationLossRaw {h w : ℕ} (before_mask after_mask : Fin h → Fin w → Bool) :
    Fin h → Fin w → Bool :=
  fun i j => before_mask i j && !(after_mask i j)

/-- The cleaned loss mask of `detect_deforestation`: saturating subtraction
followed by the morphological opening. -/
def lossMask {h w : ℕ} (before_mask after_mask : Fin h → Fin w → Bool) :
    Fin h → Fin w → Bool :=
  openMask (vegetationLossRaw before_mask after_mask)

/-- The record returned by `detect_deforestation` (the saved overlay image is
presentation-layer output and is not modelled). -/
structure DeforestationResult where
  before_area : ℕ
  loss_area : ℕ
  percent_loss : ℚ
  deriving Repr, DecidableEq

/-- The numeric core of `detect_deforestation`, starting from the two
vegetation masks (both images have already been brought to the same shape by
the `cv2.resize` step, which the equal `Fin` dimensions capture). -/
def detect_from_masks {h w : ℕ} (before_mask after_mask : Fin h → Fin w → Bool) :
    DeforestationResult :=
  let loss := lossMask before_mask after_mask
  let before_area := countTrue before_mask
  let loss_area := countTrue loss
  { before_area := before_area
    loss_area := loss_area
    percent_loss := if before_area = 0 then 0 else (loss_area : ℚ) / (before_area : ℚ) * 100 }

/-- Full `detect_deforestation`: the HSV conversion and `cv2.inRange`
green-band thresholding are external OpenCV code, modelled as an abstract
deterministic function `vegetation_mask` from images to binary masks; the rest
is `detect_from_masks`. -/
def detect_deforestation {α : Type} {h w : ℕ}
    (vegetation_mask : α → Fin h → Fin w → Bool) (before after : α) :
    DeforestationResult :=
  detect_from_masks (vegetation_mask before) (vegetation_mask after)

/-- The percent-loss value of the subtraction stage alone, before the
morphological opening is applied to the loss mask. -/
def rawPercentLoss {h w : ℕ} (before_mask after_mask : Fin h → Fin w → Bool) : ℚ :=
  if countTrue before_mask = 0 then 0
  else (countTrue (vegetationLossRaw before_mask after_mask) : ℚ) /
    (countTrue before_mask : ℚ) * 100

/-! ### Index-difference mode (`improved_visualizer._calculate_change_detection`,
`simple_visualizer._simple_change_detection`) and summary statistics -/

/-- Min–max normalization `(img - img.min()) / (img.max() - img.min())`, as
written inline in `_calculate_change_detection` and in `_normalize_image`
(grayscale branch).  On a constant image the division is 0/0, i.e. NaN. -/
def minmax_normalize {h w : ℕ} (img : Fin h → Fin w → ℚ) : Fin h → Fin w → Option ℚ :=
  fun i j => fdiv (some (img i j - matMin img)) (some (matMax img - matMin img))

/-- Smoothing: `scipy.ndimage.gaussian_filter` is external library code; it is modelled
as an arbitrary finite weighted convolution (each kernel entry is an offset
pair with a rational weight, out-of-image taps read 0), which includes the
σ = 1.0 Gaussian. -/
def convolveKernel {h w : ℕ} (ker : List (ℤ × ℤ × ℚ)) (M : Fin h → Fin w → Option ℚ) :
    Fin h → Fin w → Option ℚ := fun i j =>
  ker.foldr (fun t acc =>
    fadd (fmul (some t.2.2)
      (match shiftIdx h i t.1, shiftIdx w j t.2.1 with
       | some i2, some j2 => M i2 j2
       | _, _ => some 0)) acc) (some 0)

/-- Embedding of `_calculate_change_detection`: min–max normalize both images,
subtract, then try Gaussian smoothing.  The `try`/`except` around the
`gaussian_filter` call is modelled by the `gaussian` parameter: `some ker` is
a successful smoothing with kernel `ker`, `none` is the `except` branch,
reached when the filter call itself raises, which falls back to the
unsmoothed difference.  A missing scipy dependency is NOT this branch: the
source places `from scipy import ndimage` before the `try` block, so that
failure aborts the whole function — `calculate_change_detection_run` below
models that error path. -/
def calculate_change_detection {h w : ℕ} (img_2000 img_2025 : Fin h → Fin w → ℚ)
    (gaussian : Option (List (ℤ × ℤ × ℚ))) : Fin h → Fin w → Option ℚ :=
  let n1 := minmax_normalize img_2000
  let n2 := minmax_normalize img_2025
  let change := fun i j => fsub (n2 i j) (n1 i j)
  match gaussian with
  | some ker => convolveKernel ker change
  | none => change

/-- Outcome of the smoothing passage of `_calculate_change_detection`.  The
source executes `from scipy import ndimage` before entering the `try` block,
so a missing scipy raises `ModuleNotFoundError` out of the function, and only
an exception raised by the `gaussian_filter` call itself reaches the
`except` fallback. -/
inductive SmoothingStep where
  | importError : SmoothingStep
  | filterError : SmoothingStep
  | smoothed : List (ℤ × ℤ × ℚ) → SmoothingStep

/-- Embedding of `_calculate_change_detection` together with its error path:
the normalized difference is computed first, then the scipy import runs
outside the `try`, so `importError` aborts the function with the exception
(`Except.error`, no change map is produced), `filterError` returns the
unsmoothed map through the `except` branch, and `smoothed ker` returns the
convolved map. -/
def calculate_change_detection_run {h w : ℕ} (img_2000 img_2025 : Fin h → Fin w → ℚ)
    (step : SmoothingStep) : Except Unit (Fin h → Fin w → Option ℚ) :=
  match step with
  | SmoothingStep.importError => Except.error ()
  | SmoothingStep.filterError =>
      Except.ok (calculate_change_detection img_2000 img_2025 none)
  | SmoothingStep.smoothed ker =>
      Except.ok (calculate_change_detection img_2000 img_2025 (some ker))

/-- Embedding of `_simple_change_detection`: z-score normalize both images, then take the
bounded relative difference with ε = 1e-8.  `np.std` is an external
(irrational-valued) computation, modelled as the input scalars `std1`,
`std2`; the call site passes the standard deviations of the two images, which
vanish exactly on constant images, where the numerator also vanishes. -/
def simple_change_detection {h w : ℕ} (img1 img2 : Fin h → Fin w → ℚ)
    (std1 std2 : ℚ) : Fin h → Fin w → Option ℚ :=
  let n1 := fun i j => fdiv (some (img1 i j - matMean img1)) (some std1)
  let n2 := fun i j => fdiv (some (img2 i j - matMean img2)) (some std2)
  fun i j => fdiv (fsub (n2 i j) (n1 i j))
    (fadd (fadd (n1 i j) (n2 i j)) (some (1 / 100000000)))

/-- The statistics block of `_create_summary_report` (counts and percentages;
the JSON serialization and interpretation strings are presentation-layer). -/
structure ChangeStatistics where
  total_pixels : ℕ
  forest_loss_pixels : ℕ
  forest_gain_pixels : ℕ
  stable_pixels : ℕ
  forest_loss_percentage : ℚ
  forest_gain_percentage : ℚ
  stable_percentage : ℚ
  net_change_percentage : ℚ
  deriving Repr, DecidableEq

/-- Statistics of `_create_summary_report` over a change map: pixels with
`change < -0.1` are loss, pixels with `change > 0.1` are gain, the rest are
stable; percentages are over `change_map.size = h * w`. -/
def create_summary_report {h w : ℕ} (change_map : Fin h → Fin w → Option ℚ) :
    ChangeStatistics :=
  let total := h * w
  let loss := countTrue (fun i j => flt (change_map i j) (-(1 / 10)))
  let gain := countTrue (fun i j => fgt (change_map i j) (1 / 10))
  let stable := total - loss - gain
  { total_pixels := total
    forest_loss_pixels := loss
    forest_gain_pixels := gain
    stable_pixels := stable
    forest_loss_percentage := (loss : ℚ) / (total : ℚ) * 100
    forest_gain_percentage := (gain : ℚ) / (total : ℚ) * 100
    stable_percentage := (stable : ℚ) / (total : ℚ) * 100
    net_change_percentage := ((gain : ℚ) - (loss : ℚ)) / (total : ℚ) * 100 }

/-! ### NDVI, band normalization and density classification
(`enhanced_processor`) -/

/-- Embedding of `_calculate_ndvi`: `np.divide(nir - red, denominator,
out=np.zeros_like(denominator), where=denominator!=0)` writes the quotient
where the denominator is nonzero and leaves the 0 of the `out` array
elsewhere — a guarded division that never produces NaN — followed by
`np.clip(ndvi, -1, 1)`. -/
def calculate_ndvi {h w : ℕ} (red nir : Fin h → Fin w → ℚ) : Fin h → Fin w → ℚ :=
  fun i j =>
    let denominator := nir i j + red i j
    let raw := if denominator = 0 then 0 else (nir i j - red i j) / denominator
    clipQ raw (-1) 1

/-- Insertion into a sorted list (auxiliary of the sort used by the
percentile computation). -/
def insertSorted (x : ℚ) : List ℚ → List ℚ
  | [] => [x]
  | y :: ys => if x ≤ y then x :: y :: ys else y :: insertSorted x ys

/-- Ascending insertion sort (the sort underlying `np.percentile`). -/
def sortQ (l : List ℚ) : List ℚ := l.foldr insertSorted []

/-- Embedding of `np.percentile(xs, q)` with the default linear interpolation: the virtual
position is `q/100 * (n-1)` into the sorted data, and the value interpolates
the two neighbouring order statistics. -/
def percentileQ (xs : List ℚ) (q : ℚ) : ℚ :=
  let s := sortQ xs
  let n := s.length
  let pos : ℚ := q / 100 * ((n : ℚ) - 1)
  let lo := ⌊pos⌋.toNat
  let frac : ℚ := pos - ((⌊pos⌋ : ℤ) : ℚ)
  let vlo := s.getD lo 0
  let vhi := s.getD (lo + 1) 0
  vlo + frac * (vhi - vlo)

/-- Embedding of `_normalize_band`: clip to the 2nd/98th percentiles, then min–max
rescale.  The final division `(clipped - min) / (max - min)` has no guard in
the source: on a constant band it is 0/0, i.e. NaN at every pixel. -/
def normalize_band {h w : ℕ} (band : Fin h → Fin w → ℚ) : Fin h → Fin w → Option ℚ :=
  let p2 := percentileQ (flatten band) 2
  let p98 := percentileQ (flatten band) 98
  let clipped := fun i j => clipQ (band i j) p2 p98
  let lo := matMin clipped
  let hi := matMax clipped
  fun i j => fdiv (some (clipped i j - lo)) (some (hi - lo))

/-- Embedding of `_classify_forest_density` on one pixel: the source initializes a zero
array and performs five masked assignments in order; since the conditions are
pairwise disjoint and exhaustive, the per-pixel effect is this chain of
updates.  The output array is float-valued (`np.zeros_like(ndvi)`), hence ℚ. -/
def classify_forest_density (x : ℚ) : ℚ :=
  let d : ℚ := 0
  let d := if x < 1 / 10 then 0 else d
  let d := if 1 / 10 ≤ x ∧ x < 3 / 10 then 1 else d
  let d := if 3 / 10 ≤ x ∧ x < 5 / 10 then 2 else d
  let d := if 5 / 10 ≤ x ∧ x < 7 / 10 then 3 else d
  let d := if 7 / 10 ≤ x then 4 else d
  d

/-! ### Helper lemmas -/

/-- A successful index shift determines the target index. -/
lemma shiftIdx_val {n : ℕ} {i i2 : Fin n} {d : ℤ} (hs : shiftIdx n i d = some i2) :
    (i2 : ℤ) = (i : ℤ) + d := by
  unfold shiftIdx at hs
  dsimp only at hs
  split at hs
  · rename_i hk
    obtain rfl := Option.some.inj hs
    simp
    omega
  · exact absurd hs (by simp)

/-- A successful index shift can be undone by the opposite offset. -/
lemma shiftIdx_back {n : ℕ} {i i2 : Fin n} {d : ℤ} (hs : shiftIdx n i d = some i2) :
    shiftIdx n i2 (-d) = some i := by
  have hv := shiftIdx_val hs
  unfold shiftIdx
  rw [dif_pos (by constructor <;> omega)]
  congr 1
  apply Fin.ext
  simp
  omega

/-- The structuring-element offsets are closed under negation. -/
lemma kernelOffsets_neg {d : ℤ} (hd : d ∈ kernelOffsets) : -d ∈ kernelOffsets := by
  simp [kernelOffsets] at hd ⊢
  omega

/-- Morphological opening is anti-extensive: it only ever clears pixels.  Any
pixel set after `dilate (erode M)` lies in a translated window whose fully
in-image part is contained in `M`, and the pixel itself is in that part. -/
lemma openMask_subset {h w : ℕ} (M : Fin h → Fin w → Bool) (i : Fin h) (j : Fin w)
    (ho : openMask M i j = true) : M i j = true := by
  unfold openMask dilateMask at ho
  rw [List.any_eq_true] at ho
  obtain ⟨di, hdi, ho⟩ := ho
  rw [List.any_eq_true] at ho
  obtain ⟨dj, hdj, ho⟩ := ho
  cases hsi : shiftIdx h i di with
  | none => rw [hsi] at ho; cases hsj : shiftIdx w j dj <;> rw [hsj] at ho <;> simp at ho
  | some i2 =>
    cases hsj : shiftIdx w j dj with
    | none => rw [hsi, hsj] at ho; simp at ho
    | some j2 =>
      rw [hsi, hsj] at ho
      unfold erodeMask at ho
      rw [List.all_eq_true] at ho
      have h1 := ho (-di) (kernelOffsets_neg hdi)
      rw [List.all_eq_true] at h1
      have h2 := h1 (-dj) (kernelOffsets_neg hdj)
      rw [shiftIdx_back hsi, shiftIdx_back hsj] at h2
      exact h2

/-- Pointwise implication of masks is monotone on set-pixel counts. -/
lemma countTrue_mono {h w : ℕ} {M N : Fin h → Fin w → Bool}
    (hmn : ∀ i j, M i j = true → N i j = true) : countTrue M ≤ countTrue N := by
  unfold countTrue
  apply Finset.card_le_card
  intro p hp
  rw [Finset.mem_filter] at hp ⊢
  exact ⟨hp.1, hmn p.1 p.2 hp.2⟩

/-- An everywhere-clear mask has count zero. -/
lemma countTrue_eq_zero {h w : ℕ} {M : Fin h → Fin w → Bool}
    (hm : ∀ i j, M i j = false) : countTrue M = 0 := by
  unfold countTrue
  rw [Finset.card_eq_zero, Finset.filter_eq_empty_iff]
  intro p _
  simp [hm]

/-- Any weighted convolution maps the all-zero map to the all-zero map. -/
lemma convolveKernel_of_zero {h w : ℕ} (ker : List (ℤ × ℤ × ℚ))
    {M : Fin h → Fin w → Option ℚ} (hM : ∀ i j, M i j = some 0)
    (i : Fin h) (j : Fin w) : convolveKernel ker M i j = some 0 := by
  unfold convolveKernel
  induction ker with
  | nil => rfl
  | cons t ts ih =>
    rw [List.foldr_cons, ih]
    rcases hsi : shiftIdx h i t.1 with _ | i2 <;>
      rcases hsj : shiftIdx w j t.2.1 with _ | j2 <;>
      simp [hsi, hsj, hM, fmul, fadd]

-- regional evaluation lemmas for the classifier
lemma classify_region0 (x : ℚ) (hx : x < 1/10) : classify_forest_density x = 0 := by
  unfold classify_forest_density
  dsimp only
  rw [if_neg (by intro hc; linarith),
    if_neg (by rintro ⟨ha, hb⟩; linarith),
    if_neg (by rintro ⟨ha, hb⟩; linarith),
    if_neg (by rintro ⟨ha, hb⟩; linarith),
    if_pos hx]

lemma classify_region1 (x : ℚ) (h1 : 1/10 ≤ x) (h2 : x < 3/10) :
    classify_forest_density x = 1 := by
  unfold classify_forest_density
  dsimp only
  rw [if_neg (by intro hc; linarith),
    if_neg (by rintro ⟨ha, hb⟩; linarith),
    if_neg (by rintro ⟨ha, hb⟩; linarith),
    if_pos ⟨h1, h2⟩]

lemma classify_region2 (x : ℚ) (h1 : 3/10 ≤ x) (h2 : x < 5/10) :
    classify_forest_density x = 2 := by
  unfold classify_forest_density
  dsimp only
  rw [if_neg (by intro hc; linarith),
    if_neg (by rintro ⟨ha, hb⟩; linarith),
    if_pos ⟨h1, h2⟩]

lemma classify_region3 (x : ℚ) (h1 : 5/10 ≤ x) (h2 : x < 7/10) :
    classify_forest_density x = 3 := by
  unfold classify_forest_density
  dsimp only
  rw [if_neg (by intro hc; linarith),
    if_pos ⟨h1, h2⟩]

lemma classify_region4 (x : ℚ) (h1 : 7/10 ≤ x) : classify_forest_density x = 4 := by
  unfold classify_forest_density
  dsimp only
  rw [if_pos h1]

lemma classify_forest_density_eq (x : ℚ) : classify_forest_density x =
    if x < 1/10 then 0 else if x < 3/10 then 1 else if x < 5/10 then 2
    else if x < 7/10 then 3 else 4 := by
  rcases lt_or_le x (1/10) with h1 | h1
  · rw [classify_region0 x h1, if_pos h1]
  · rcases lt_or_le x (3/10) with h2 | h2
    · rw [classify_region1 x h1 h2, if_neg (not_lt.mpr h1), if_pos h2]
    · rcases lt_or_le x (5/10) with h3 | h3
      · rw [classify_region2 x h2 h3, if_neg (not_lt.mpr h1), if_neg (not_lt.mpr h2),
          if_pos h3]
      · rcases lt_or_le x (7/10) with h4 | h4
        · rw [classify_region3 x h3 h4, if_neg (not_lt.mpr h1), if_neg (not_lt.mpr h2),
            if_neg (not_lt.mpr h3), if_pos h4]
        · rw [classify_region4 x h4, if_neg (not_lt.mpr h1), if_neg (not_lt.mpr h2),
            if_neg (not_lt.mpr h3), if_neg (not_lt.mpr h4)]

/-- C6: `_classify_forest_density` maps each NDVI value by exactly the fixed
half-open thresholds: class 0 below 0.1, class 1 on [0.1, 0.3), class 2 on
[0.3, 0.5), class 3 on [0.5, 0.7), class 4 from 0.7 upward; in particular the
boundary input 0.1 receives class 1, and every output is one of
0, 1, 2, 3, 4. -/
theorem classify_density_thresholds (x : ℚ) :
    (x < 1/10 → classify_forest_density x = 0) ∧
    (1/10 ≤ x → x < 3/10 → classify_forest_density x = 1) ∧
    (3/10 ≤ x → x < 5/10 → classify_forest_density x = 2) ∧
    (5/10 ≤ x → x < 7/10 → classify_forest_density x = 3) ∧
    (7/10 ≤ x → classify_forest_density x = 4) ∧
    classify_forest_density (1/10) = 1 ∧
    (classify_forest_density x = 0 ∨ classify_forest_density x = 1 ∨
      classify_forest_density x = 2 ∨ classify_forest_density x = 3 ∨
      classify_forest_density x = 4) := by
  refine ⟨classify_region0 x, classify_region1 x, classify_region2 x,
    classify_region3 x, classify_region4 x,
    classify_region1 (1/10) le_rfl (by norm_num), ?_⟩
  rw [classify_forest_density_eq]
  split_ifs <;> norm_num

/-- C6 witness: the boundary pair — exactly 0.1 classifies as 1, while
0.0999 classifies as 0. -/
theorem classify_density_thresholds_witness :
    ((1:ℚ)/10 ≤ 1/10 ∧ (1:ℚ)/10 < 3/10 ∧ (99:ℚ)/1000 < 1/10) ∧
    classify_forest_density (1/10) = 1 ∧ classify_forest_density (99/1000) = 0 := by
  refine ⟨⟨le_rfl, by norm_num, by norm_num⟩, ?_, ?_⟩
  · exact (classify_density_thresholds (1/10)).2.1 le_rfl (by norm_num)
  · exact (classify_density_thresholds (99/1000)).1 (by norm_num)

/-- C7: `_classify_forest_density` is a total function on all of ℚ (values
outside [-1, 1] classify through the same boundaries, totality holding by
construction of the embedding) and is monotone non-decreasing: inputs
`x ≤ y` receive classes `class x ≤ class y`. -/
theorem classify_density_monotone (x y : ℚ) (hxy : x ≤ y) :
    classify_forest_density x ≤ classify_forest_density y := by
  rw [classify_forest_density_eq, classify_forest_density_eq]
  split_ifs <;> linarith

/-- C7 witness: monotonicity instantiated at the out-of-range inputs -3 and
5. -/
theorem classify_density_monotone_witness :
    (-3 : ℚ) ≤ 5 ∧ classify_forest_density (-3) ≤ classify_forest_density 5 :=
  ⟨by norm_num, classify_density_monotone (-3) 5 (by norm_num)⟩

/-- C3: in mask-subtraction mode `percent_loss` equals
`count(loss_mask) / count(before_mask) * 100`, and whenever the before mask
has zero set pixels the result is the defined value 0 (an explicit branch in
the source, not an exception and not NaN). -/
theorem percent_loss_formula {h w : ℕ} (before_mask after_mask : Fin h → Fin w → Bool) :
    ((detect_from_masks before_mask after_mask).percent_loss =
      if countTrue before_mask = 0 then 0
      else (countTrue (lossMask before_mask after_mask) : ℚ) /
        (countTrue before_mask : ℚ) * 100) ∧
    (countTrue before_mask = 0 →
      (detect_from_masks before_mask after_mask).percent_loss = 0) ∧
    (countTrue before_mask ≠ 0 →
      (detect_from_masks before_mask after_mask).percent_loss =
        (countTrue (lossMask before_mask after_mask) : ℚ) /
          (countTrue before_mask : ℚ) * 100) := by
  refine ⟨rfl, ?_, ?_⟩
  · intro h0
    unfold detect_from_masks
    dsimp only
    rw [if_pos h0]
  · intro h0
    unfold detect_from_masks
    dsimp only
    rw [if_neg h0]

def emptyMask : Fin 2 → Fin 2 → Bool := fun _ _ => false

/-- C3 witness: on the all-clear 2×2 before mask the zero-area branch fires
and `percent_loss` is 0. -/
theorem percent_loss_formula_witness :
    countTrue emptyMask = 0 ∧ (detect_from_masks emptyMask emptyMask).percent_loss = 0 :=
  ⟨by decide, (percent_loss_formula emptyMask emptyMask).2.1 (by decide)⟩

/-- C10: the cleaned loss mask is a subset of the before mask (saturating
subtraction only marks pixels set in the before mask, and morphological
opening never adds pixels), hence `loss_area ≤ before_area` and the returned
`percent_loss` always lies in [0, 100]. -/
theorem loss_mask_subset_percent_bounds {h w : ℕ}
    (before_mask after_mask : Fin h → Fin w → Bool) :
    (∀ i j, lossMask before_mask after_mask i j = true → before_mask i j = true) ∧
    (detect_from_masks before_mask after_mask).loss_area ≤
      (detect_from_masks before_mask after_mask).before_area ∧
    0 ≤ (detect_from_masks before_mask after_mask).percent_loss ∧
    (detect_from_masks before_mask after_mask).percent_loss ≤ 100 := by
  have hsub : ∀ i j, lossMask before_mask after_mask i j = true → before_mask i j = true := by
    intro i j hl
    have hraw := openMask_subset _ i j hl
    unfold vegetationLossRaw at hraw
    exact ((Bool.and_eq_true _ _).mp hraw).1
  have hle : countTrue (lossMask before_mask after_mask) ≤ countTrue before_mask :=
    countTrue_mono hsub
  refine ⟨hsub, hle, ?_, ?_⟩
  · unfold detect_from_masks
    dsimp only
    split_ifs with h0
    · exact le_refl 0
    · positivity
  · unfold detect_from_masks
    dsimp only
    split_ifs with h0
    · norm_num
    · have hbpos : (0:ℚ) < (countTrue before_mask : ℚ) := by
        exact_mod_cast Nat.pos_of_ne_zero h0
      have hcast : (countTrue (lossMask before_mask after_mask) : ℚ) ≤
          (countTrue before_mask : ℚ) := by exact_mod_cast hle
      calc (countTrue (lossMask before_mask after_mask) : ℚ) /
            (countTrue before_mask : ℚ) * 100
          ≤ 1 * 100 := by
            apply mul_le_mul_of_nonneg_right _ (by norm_num)
            exact (div_le_one hbpos).mpr hcast
        _ = 100 := by norm_num

def fullMask3 : Fin 3 → Fin 3 → Bool := fun _ _ => true
def emptyMask3 : Fin 3 → Fin 3 → Bool := fun _ _ => false

/-- C10 witness: the bounds instantiated on a concrete full/empty 3×3 mask
pair. -/
theorem loss_mask_subset_percent_bounds_witness :
    (detect_from_masks fullMask3 emptyMask3).loss_area ≤
      (detect_from_masks fullMask3 emptyMask3).before_area ∧
    0 ≤ (detect_from_masks fullMask3 emptyMask3).percent_loss ∧
    (detect_from_masks fullMask3 emptyMask3).percent_loss ≤ 100 :=
  (loss_mask_subset_percent_bounds fullMask3 emptyMask3).2

/-- C4 (amended): `_calculate_ndvi` yields exactly 0 at every pixel where
`red + nir = 0` (masked division, never NaN or Inf), yields the clip of
`(nir - red) / (nir + red)` to `[-1, 1]` at every pixel with nonzero
denominator — which is the raw quotient itself whenever both bands are
nonnegative — and every output lies in `[-1, 1]`.  The amendment records that
the final `np.clip` replaces the raw quotient when it falls outside
`[-1, 1]`, which can happen only for a negative band value (see the
counterexample). -/
theorem ndvi_masked_division_clip {h w : ℕ} (red nir : Fin h → Fin w → ℚ)
    (i : Fin h) (j : Fin w) :
    (nir i j + red i j = 0 → calculate_ndvi red nir i j = 0) ∧
    (nir i j + red i j ≠ 0 →
      calculate_ndvi red nir i j =
        clipQ ((nir i j - red i j) / (nir i j + red i j)) (-1) 1) ∧
    -1 ≤ calculate_ndvi red nir i j ∧ calculate_ndvi red nir i j ≤ 1 ∧
    (0 ≤ red i j → 0 ≤ nir i j → nir i j + red i j ≠ 0 →
      calculate_ndvi red nir i j = (nir i j - red i j) / (nir i j + red i j)) := by
  unfold calculate_ndvi
  dsimp only
  refine ⟨?_, ?_, ?_, ?_, ?_⟩
  · intro h0
    rw [if_pos h0]
    unfold clipQ
    norm_num
  · intro h0
    rw [if_neg h0]
  · exact le_max_left _ _
  · exact max_le (by norm_num) (min_le_right _ _)
  · intro hr hn h0
    rw [if_neg h0]
    have hpos : 0 < nir i j + red i j := lt_of_le_of_ne (by linarith) (Ne.symm h0)
    have hle1 : (nir i j - red i j) / (nir i j + red i j) ≤ 1 := by
      rw [div_le_one hpos]
      linarith
    have hge : -1 ≤ (nir i j - red i j) / (nir i j + red i j) := by
      rw [le_div_iff₀ hpos]
      linarith
    unfold clipQ
    rw [min_eq_left hle1, max_eq_right hge]

def redNeg : Fin 1 → Fin 1 → ℚ := fun _ _ => -1
def nirPos : Fin 1 → Fin 1 → ℚ := fun _ _ => 2

/-- C4 counterexample: at `red = -1`, `nir = 2` the denominator is nonzero
and `(nir - red) / (nir + red) = 3`, but `_calculate_ndvi` returns the
clipped value 1, so the output does not equal the raw quotient at every pixel
with nonzero denominator, as the claim literally demands together with
membership in `[-1, 1]`. -/
theorem ndvi_negative_band_counterexample :
    nirPos 0 0 + redNeg 0 0 ≠ 0 ∧
    (nirPos 0 0 - redNeg 0 0) / (nirPos 0 0 + redNeg 0 0) = 3 ∧
    calculate_ndvi redNeg nirPos 0 0 = 1 ∧ (1 : ℚ) ≠ 3 := by
  refine ⟨by norm_num [nirPos, redNeg], by norm_num [nirPos, redNeg], ?_, by norm_num⟩
  unfold calculate_ndvi nirPos redNeg clipQ
  norm_num

def redSample : Fin 1 → Fin 1 → ℚ := fun _ _ => 1
def nirSample : Fin 1 → Fin 1 → ℚ := fun _ _ => 3

/-- C4 witness: for the nonnegative bands `red = 1`, `nir = 3` the NDVI value
is the raw quotient 1/2. -/
theorem ndvi_masked_division_clip_witness :
    (0 ≤ redSample 0 0 ∧ 0 ≤ nirSample 0 0 ∧ nirSample 0 0 + redSample 0 0 ≠ 0) ∧
    calculate_ndvi redSample nirSample 0 0 = 1/2 := by
  refine ⟨⟨by norm_num [redSample], by norm_num [nirSample],
    by norm_num [redSample, nirSample]⟩, ?_⟩
  have hq := (ndvi_masked_division_clip redSample nirSample 0 0).2.2.2.2
    (by norm_num [redSample]) (by norm_num [nirSample])
    (by norm_num [redSample, nirSample])
  rw [hq]
  norm_num [redSample, nirSample]

/-- C8: the summary statistics derived from any change map classify each
pixel by the default thresholds — a pixel counts as loss exactly when its
value is a number below -0.1, as gain exactly when above 0.1, and everything
else (including NaN pixels, whose comparisons are false) as stable — and the
reported net change percentage equals the gain percentage minus the loss
percentage. -/
theorem summary_report_thresholds_net {h w : ℕ} (change_map : Fin h → Fin w → Option ℚ) :
    (∀ i j, flt (change_map i j) (-(1/10)) = true ↔
      ∃ v, change_map i j = some v ∧ v < -(1/10)) ∧
    (∀ i j, fgt (change_map i j) (1/10) = true ↔
      ∃ v, change_map i j = some v ∧ 1/10 < v) ∧
    (create_summary_report change_map).forest_loss_pixels =
      countTrue (fun i j => flt (change_map i j) (-(1/10))) ∧
    (create_summary_report change_map).forest_gain_pixels =
      countTrue (fun i j => fgt (change_map i j) (1/10)) ∧
    (create_summary_report change_map).stable_pixels =
      (create_summary_report change_map).total_pixels -
      (create_summary_report change_map).forest_loss_pixels -
      (create_summary_report change_map).forest_gain_pixels ∧
    (create_summary_report change_map).forest_loss_percentage =
      ((create_summary_report change_map).forest_loss_pixels : ℚ) /
        (((h * w : ℕ)) : ℚ) * 100 ∧
    (create_summary_report change_map).forest_gain_percentage =
      ((create_summary_report change_map).forest_gain_pixels : ℚ) /
        (((h * w : ℕ)) : ℚ) * 100 ∧
    (create_summary_report change_map).net_change_percentage =
      (create_summary_report change_map).forest_gain_percentage -
      (create_summary_report change_map).forest_loss_percentage := by
  refine ⟨?_, ?_, rfl, rfl, rfl, rfl, rfl, ?_⟩
  · intro i j
    cases hm : change_map i j with
    | none => simp [flt]
    | some a => simp [flt]
  · intro i j
    cases hm : change_map i j with
    | none => simp [fgt]
    | some a => simp [fgt]
  · unfold create_summary_report
    dsimp only
    rw [sub_div, sub_mul]

def sampleChangeMap : Fin 1 → Fin 3 → Option ℚ := fun _ j =>
  if j = 0 then some (-(1/2)) else if j = 1 then some 0 else none

/-- C8 witness: the net-change identity instantiated on a concrete 1×3 change
map holding a loss pixel, a stable pixel and a NaN pixel. -/
theorem summary_report_thresholds_net_witness :
    (create_summary_report sampleChangeMap).net_change_percentage =
      (create_summary_report sampleChangeMap).forest_gain_percentage -
      (create_summary_report sampleChangeMap).forest_loss_percentage :=
  (summary_report_thresholds_net sampleChangeMap).2.2.2.2.2.2.2

/-- C9 (code bug): the source places `from scipy import ndimage` before the
`try` block of `_calculate_change_detection`, so when the scipy dependency is
missing the function raises and aborts — it does not return the unsmoothed
change map that the claim and the spec require for that case — while only an
exception raised by the `gaussian_filter` call itself reaches the `except`
fallback, where the result is exactly the raw normalized difference of the
min–max-normalized inputs. -/
theorem scipy_missing_aborts_change_detection :
    (∀ (h w : ℕ) (img_2000 img_2025 : Fin h → Fin w → ℚ),
      calculate_change_detection_run img_2000 img_2025 SmoothingStep.importError =
        Except.error () ∧
      ∀ m, calculate_change_detection_run img_2000 img_2025 SmoothingStep.importError ≠
        Except.ok m) ∧
    (∀ (h w : ℕ) (img_2000 img_2025 : Fin h → Fin w → ℚ),
      calculate_change_detection_run img_2000 img_2025 SmoothingStep.filterError =
        Except.ok (fun i j =>
          fsub (minmax_normalize img_2025 i j) (minmax_normalize img_2000 i j))) := by
  refine ⟨fun h w a b => ⟨rfl, fun m hc => ?_⟩, fun h w a b => rfl⟩
  exact absurd hc (by simp [calculate_change_detection_run])

lemma flatten_length {h w : ℕ} (M : Fin h → Fin w → ℚ) : (flatten M).length = h * w := by
  unfold flatten
  rw [List.length_flatMap]
  rw [show (List.length ∘ fun i => List.map (M i) (List.finRange w)) = fun _ => w by
    funext i
    simp]
  rw [List.map_const', List.sum_replicate, List.length_finRange, smul_eq_mul]

lemma minmax_normalize_of_ne {h w : ℕ} {img : Fin h → Fin w → ℚ}
    (hne : matMin img ≠ matMax img) (i : Fin h) (j : Fin w) :
    minmax_normalize img i j = some ((img i j - matMin img) / (matMax img - matMin img)) := by
  unfold minmax_normalize
  simp only [fdiv]
  rw [if_neg (sub_ne_zero_of_ne (Ne.symm hne))]

lemma matMin_matMax_of_nil {h w : ℕ} {M : Fin h → Fin w → ℚ} (hf : flatten M = []) :
    matMin M = matMax M := by
  unfold matMin matMax
  rw [hf]

/-- C1 (amended): running change detection on two copies of the same input is
a no-op.  In mask-subtraction mode the loss mask is identically clear,
`loss_area = 0` and `percent_loss = 0`, for every input and every
deterministic vegetation masker.  In index-difference mode, for every raster
that is not constant, the change map is identically zero and the summary
statistics report 0 loss pixels, 0 gain pixels, 0% loss, 0% gain, 100% stable
and 0% net change, with or without Gaussian smoothing; the
`_simple_change_detection` variant likewise yields an all-zero map whenever
its standard deviation is nonzero and its per-pixel denominators do not
vanish.  The amendment excludes constant rasters in index-difference mode:
there the unguarded min–max normalization divides 0/0 and the change map is
NaN rather than zero (see the counterexample). -/
theorem detect_change_idempotent :
    (∀ (α : Type) (h w : ℕ) (vegetation_mask : α → Fin h → Fin w → Bool) (X : α),
      (∀ i j, lossMask (vegetation_mask X) (vegetation_mask X) i j = false) ∧
      (detect_deforestation vegetation_mask X X).loss_area = 0 ∧
      (detect_deforestation vegetation_mask X X).percent_loss = 0) ∧
    (∀ (h w : ℕ) (X : Fin h → Fin w → ℚ) (gaussian : Option (List (ℤ × ℤ × ℚ))),
      matMin X ≠ matMax X →
      (∀ i j, calculate_change_detection X X gaussian i j = some 0) ∧
      (create_summary_report (calculate_change_detection X X gaussian)).forest_loss_pixels
        = 0 ∧
      (create_summary_report (calculate_change_detection X X gaussian)).forest_gain_pixels
        = 0 ∧
      (create_summary_report
        (calculate_change_detection X X gaussian)).forest_loss_percentage = 0 ∧
      (create_summary_report
        (calculate_change_detection X X gaussian)).forest_gain_percentage = 0 ∧
      (create_summary_report (calculate_change_detection X X gaussian)).stable_percentage
        = 100 ∧
      (create_summary_report
        (calculate_change_detection X X gaussian)).net_change_percentage = 0) ∧
    (∀ (h w : ℕ) (X : Fin h → Fin w → ℚ) (std : ℚ), std ≠ 0 →
      (∀ i j, 2 * ((X i j - matMean X) / std) + 1 / 100000000 ≠ 0) →
      ∀ i j, simple_change_detection X X std std i j = some 0) := by
  refine ⟨?_, ?_, ?_⟩
  · -- mask-subtraction mode
    intro α h w f X
    have hraw : ∀ i j, vegetationLossRaw (f X) (f X) i j = false := by
      intro i j
      unfold vegetationLossRaw
      exact Bool.and_not_self _
    have hloss : ∀ i j, lossMask (f X) (f X) i j = false := by
      intro i j
      unfold lossMask
      cases hcase : openMask (vegetationLossRaw (f X) (f X)) i j with
      | false => rfl
      | true =>
        have := openMask_subset _ i j hcase
        rw [hraw i j] at this
        exact absurd this (by simp)
    refine ⟨hloss, ?_, ?_⟩
    · unfold detect_deforestation detect_from_masks
      dsimp only
      exact countTrue_eq_zero hloss
    · unfold detect_deforestation detect_from_masks
      dsimp only
      rw [countTrue_eq_zero hloss]
      split_ifs <;> norm_num
  · -- index-difference mode (improved_visualizer)
    intro h w X gaussian hne
    have hnorm : ∀ (i : Fin h) (j : Fin w),
        fsub (minmax_normalize X i j) (minmax_normalize X i j) = some 0 := by
      intro i j
      rw [minmax_normalize_of_ne hne i j]
      show fsub (some _) (some _) = some 0
      simp [fsub]
    have hmap : ∀ i j, calculate_change_detection X X gaussian i j = some 0 := by
      intro i j
      cases gaussian with
      | none => exact hnorm i j
      | some ker => exact convolveKernel_of_zero ker hnorm i j
    have hlt : countTrue
        (fun i j => flt (calculate_change_detection X X gaussian i j) (-(1/10))) = 0 := by
      apply countTrue_eq_zero
      intro i j
      rw [hmap i j]
      simp only [flt, decide_eq_false_iff_not]
      norm_num
    have hgt : countTrue
        (fun i j => fgt (calculate_change_detection X X gaussian i j) (1/10)) = 0 := by
      apply countTrue_eq_zero
      intro i j
      rw [hmap i j]
      simp only [fgt, decide_eq_false_iff_not]
      norm_num
    have hfl : flatten X ≠ [] := fun hf => hne (matMin_matMax_of_nil hf)
    have htot : h * w ≠ 0 := by
      rw [← flatten_length X]
      exact fun hc => hfl (List.length_eq_zero.mp hc)
    have htotQ : ((h * w : ℕ) : ℚ) ≠ 0 := Nat.cast_ne_zero.mpr htot
    refine ⟨hmap, ?_, ?_, ?_, ?_, ?_, ?_⟩
    · unfold create_summary_report
      dsimp only
      exact hlt
    · unfold create_summary_report
      dsimp only
      exact hgt
    · unfold create_summary_report
      dsimp only
      rw [hlt]
      norm_num
    · unfold create_summary_report
      dsimp only
      rw [hgt]
      norm_num
    · unfold create_summary_report
      dsimp only
      rw [hlt, hgt]
      rw [Nat.sub_zero, Nat.sub_zero, div_self htotQ]
      norm_num
    · unfold create_summary_report
      dsimp only
      rw [hlt, hgt]
      norm_num
  · -- index-difference mode (simple_visualizer)
    intro h w X std hstd hde i j
    unfold simple_change_detection
    dsimp only
    simp only [fdiv]
    rw [if_neg hstd]
    simp only [fsub, fadd]
    have hden : (X i j - matMean X) / std + (X i j - matMean X) / std + 1 / 100000000 ≠ 0 := by
      have hd := hde i j
      rw [two_mul] at hd
      exact fun hc => hd (by linarith)
    rw [if_neg hden]
    norm_num

def idempotentSample : Fin 1 → Fin 2 → ℚ := fun _ j => if j = 0 then 0 else 1

/-- C1 witness: the index-difference branch instantiated on a concrete
nonconstant 1×2 raster, giving a zero change map and 100% stable. -/
theorem detect_change_idempotent_witness :
    matMin idempotentSample ≠ matMax idempotentSample ∧
    calculate_change_detection idempotentSample idempotentSample none 0 0 = some 0 ∧
    (create_summary_report
      (calculate_change_detection idempotentSample idempotentSample none)).stable_percentage
      = 100 :=
  ⟨by decide,
   (detect_change_idempotent.2.1 1 2 idempotentSample none (by decide)).1 0 0,
   (detect_change_idempotent.2.1 1 2 idempotentSample none (by decide)).2.2.2.2.2.1⟩

def constRaster : Fin 1 → Fin 1 → ℚ := fun _ _ => 3

/-- C1 counterexample: on the constant 1×1 raster with value 3,
index-difference change detection of the raster against itself yields NaN
(modelled as `none`) at pixel (0,0), not the zero map the claim requires for
every raster. -/
theorem detect_change_constant_raster_nan :
    calculate_change_detection constRaster constRaster none 0 0 = none ∧
    (none : Option ℚ) ≠ some 0 := by
  constructor
  · show fsub (minmax_normalize constRaster 0 0) (minmax_normalize constRaster 0 0) = none
    have hd : matMax constRaster - matMin constRaster = 0 := by
      have h1 : matMin constRaster = 3 := by decide
      have h2 : matMax constRaster = 3 := by decide
      rw [h1, h2]
      norm_num
    unfold minmax_normalize
    simp only [fdiv]
    rw [if_pos hd]
    rfl
  · simp

/-- C2 (amended): for every 10×10 before mask with exactly 50 set pixels and
an after mask identical except that 10 of those set pixels are cleared, the
subtraction stage of mask-subtraction change detection — before the 5×5
morphological opening that `detect_deforestation` then applies — yields
`percent_loss = 20`.  The full pipeline applies the opening to the loss mask
first, which can erase isolated cleared pixels, so 20.0 is not reached for
every placement of the cleared pixels (see the counterexample). -/
theorem mask_subtraction_example_raw {before_mask after_mask : Fin 10 → Fin 10 → Bool}
    (_hsub : ∀ i j, after_mask i j = true → before_mask i j = true)
    (hb : countTrue before_mask = 50)
    (hl : countTrue (vegetationLossRaw before_mask after_mask) = 10) :
    rawPercentLoss before_mask after_mask = 20 := by
  unfold rawPercentLoss
  rw [hb, hl]
  norm_num

def before50 : Fin 10 → Fin 10 → Bool := fun i _ => i.val < 5

def cleared10 : Fin 10 → Fin 10 → Bool := fun i j =>
  (i.val = 0 || i.val = 3) && j.val % 2 = 0

def after40 : Fin 10 → Fin 10 → Bool := fun i j => before50 i j && !(cleared10 i j)

/-- C2 witness: concrete 10×10 masks with 50 set pixels and 10 cleared ones
for which the subtraction stage reports exactly 20%. -/
theorem mask_subtraction_example_raw_witness :
    ((∀ i j, after40 i j = true → before50 i j = true) ∧
      countTrue before50 = 50 ∧
      countTrue (vegetationLossRaw before50 after40) = 10) ∧
    rawPercentLoss before50 after40 = 20 :=
  ⟨⟨by decide, by decide, by decide⟩,
    mask_subtraction_example_raw (by decide) (by decide) (by decide)⟩

set_option maxHeartbeats 1600000 in
/-- C2 counterexample: a concrete 10×10 before mask with 50 set pixels and an
after mask clearing 10 of them in scattered positions.  The raw subtraction
stage holds exactly those 10 loss pixels, but the 5×5 morphological opening
erases all of them, so `detect_deforestation` returns `percent_loss = 0`,
not 20. -/
theorem mask_subtraction_opening_counterexample :
    countTrue before50 = 50 ∧
    countTrue (vegetationLossRaw before50 after40) = 10 ∧
    countTrue (fun i j => after40 i j && !(before50 i j)) = 0 ∧
    (detect_from_masks before50 after40).percent_loss = 0 ∧
    (0 : ℚ) ≠ 20 := by
  refine ⟨by decide, by decide, by decide, ?_, by norm_num⟩
  have hz : countTrue (lossMask before50 after40) = 0 := by decide
  have hb : countTrue before50 = 50 := by decide
  unfold detect_from_masks
  dsimp only
  rw [hz, hb]
  norm_num

def constBand : Fin 2 → Fin 2 → ℚ := fun _ _ => 5

/-- C5 (code bug): on a constant band (all pixels 5) both `_normalize_band`
and the grayscale `_normalize_image` divide 0/0 — neither has the explicit
max == min branch the spec requires — so every output pixel is NaN (modelled
as `none`), not the all-zero raster. -/
theorem normalize_constant_band_nan :
    (∀ i j, normalize_band constBand i j = none) ∧
    (∀ i j, minmax_normalize constBand i j = none) := by
  have hs : sortQ (flatten constBand) = [5, 5, 5, 5] := by decide
  have hp2 : percentileQ (flatten constBand) 2 = 5 := by
    unfold percentileQ
    rw [hs]
    dsimp only [List.length_cons, List.length_nil]
    have hpos : (2 : ℚ) / 100 * ((3 + 1 : ℕ) - 1 : ℚ) = 3/50 := by push_cast; norm_num
    rw [hpos]
    have hfl : ⌊(3 : ℚ)/50⌋ = 0 := by norm_num
    rw [hfl]
    have e1 : List.getD [5, 5, 5, 5] ((0 : ℤ).toNat) (0 : ℚ) = 5 := rfl
    have e2 : List.getD [5, 5, 5, 5] ((0 : ℤ).toNat + 1) (0 : ℚ) = 5 := rfl
    rw [e1, e2]
    norm_num
  have hp98 : percentileQ (flatten constBand) 98 = 5 := by
    unfold percentileQ
    rw [hs]
    dsimp only [List.length_cons, List.length_nil]
    have hpos : (98 : ℚ) / 100 * ((3 + 1 : ℕ) - 1 : ℚ) = 147/50 := by push_cast; norm_num
    rw [hpos]
    have hfl : ⌊(147 : ℚ)/50⌋ = 2 := by norm_num
    rw [hfl]
    have e1 : List.getD [5, 5, 5, 5] ((2 : ℤ).toNat) (0 : ℚ) = 5 := rfl
    have e2 : List.getD [5, 5, 5, 5] ((2 : ℤ).toNat + 1) (0 : ℚ) = 5 := rfl
    rw [e1, e2]
    norm_num
  constructor
  · intro i j
    unfold normalize_band
    dsimp only
    rw [hp2, hp98]
    have hcl : (fun (a : Fin 2) (b : Fin 2) => clipQ (constBand a b) 5 5) =
        (fun _ _ => (5 : ℚ)) := by
      funext a b
      unfold constBand clipQ
      norm_num
    rw [hcl]
    have hone : clipQ (constBand i j) 5 5 = 5 := by
      unfold constBand clipQ
      norm_num
    rw [hone]
    have hmin : matMin (fun (_ : Fin 2) (_ : Fin 2) => (5 : ℚ)) = 5 := by decide
    have hmax : matMax (fun (_ : Fin 2) (_ : Fin 2) => (5 : ℚ)) = 5 := by decide
    rw [hmin, hmax]
    simp only [fdiv]
    norm_num
  · intro i j
    unfold minmax_normalize
    simp only [fdiv]
    have h1 : matMin constBand = 5 := by decide
    have h2 : matMax constBand = 5 := by decide
    rw [h1, h2]
    norm_num

end SierraVision
